import Mathlib

/-!
Verification of the nvfp4-fix repository against its specification.

The development shallowly embeds the two core components:

* the patch engine of `src/nvfp4_fix/patches/patcher.py`
  (`find_compressed_tensors_files`, `is_patched`, `apply_patch`), modelled
  over an explicit filesystem state holding the three target files and
  their backups (file contents are lists of characters); and
* the scale-recovery part of the checkpoint repair pipeline of
  `src/nvfp4_fix/scripts/fix_model.py` (`fix_nvfp4_model`), where the
  external effects (model loading, the torch forward pass, saving) are
  supplied by an environment record and shard files are explicit lists of
  key/tensor entries.

Python strings become `List Char`; `str.replace`, `str.split`-style line
handling, `str.strip`, `str.startswith`, `in` (substring) and `endswith`
are defined below, faithful to Python semantics on the inputs involved.
-/

/-- File contents and string fragments are lists of characters. -/
abbrev Str := List Char

/-- Python whitespace as used by `str.strip` / `str.lstrip` on the ASCII
source files involved: space, tab, newline, carriage return, vertical tab,
form feed. -/
def pySpace (c : Char) : Bool :=
  c = ' ' || c = '\t' || c = '\n' || c = '\r' || c = Char.ofNat 11 || c = Char.ofNat 12

/-- Python `str.strip()`: drop leading and trailing whitespace. -/
def pstrip (l : Str) : Str :=
  ((l.dropWhile pySpace).reverse.dropWhile pySpace).reverse

/-- The leading-whitespace prefix of a line: Python
`line[:len(line) - len(line.lstrip())]`. -/
def leadingWS (l : Str) : Str := l.takeWhile pySpace

/-- Python substring containment `pat in s`. -/
def containsSub (pat : Str) : Str → Bool
  | [] => pat.isPrefixOf []
  | c :: cs => pat.isPrefixOf (c :: cs) || containsSub pat cs

/-- Python `str.replace(pat, rep)` (all non-overlapping occurrences, left to
right), written with explicit fuel so that it is structurally recursive;
`replaceAll` below instantiates the fuel with the string length, which is
always sufficient because every step consumes at least one character. -/
def replaceAllGo (pat rep : Str) : Nat → Str → Str
  | _, [] => []
  | 0, s => s
  | fuel + 1, c :: cs =>
    if pat.isPrefixOf (c :: cs) && !pat.isEmpty then
      rep ++ replaceAllGo pat rep fuel ((c :: cs).drop pat.length)
    else
      c :: replaceAllGo pat rep fuel cs

/-- Python `s.replace(pat, rep)`. -/
def replaceAll (pat rep s : Str) : Str := replaceAllGo pat rep s.length s

/-- Python `f.readlines()` applied to a file content: split into lines, each
keeping its trailing newline; a final fragment without a newline is kept,
and an empty content yields no lines.  `acc` holds the characters of the
current (unfinished) line in reverse. -/
def splitLinesAux (acc : Str) : Str → List Str
  | [] => if acc.isEmpty then [] else [acc.reverse]
  | c :: cs =>
    if c = '\n' then (acc.reverse ++ ['\n']) :: splitLinesAux [] cs
    else splitLinesAux (c :: acc) cs

/-- Split a file content into the list of its lines (`f.readlines()`). -/
def splitLines (s : Str) : List Str := splitLinesAux [] s

/-! ### Literal text fragments of `patcher.py` -/

/-- Detection marker checked by `is_patched` for `compressors/base.py`. -/
def marker1 : Str := "# PATCH: Also add named_buffers".toList

/-- Detection marker checked by `is_patched` for
`quantized_compressors/base.py`. -/
def marker2 : Str := "# PATCHED: Don\x27t skip scale for NVFP4".toList

/-- Detection marker checked by `is_patched` for
`quantized_compressors/fp4_quantized.py`. -/
def marker3 : Str := "# PATCHED: Convert float8 to avoid promotion errors".toList

/-- Anchor substring searched for by patch 1. -/
def anchor1 : Str := "for name, parameter in module.named_parameters():".toList

/-- First line inserted by patch 1 (before prepending the indent). -/
def p1Line : Str := "# PATCH: Also add named_buffers (e.g., weight_scale)\n".toList

/-- Second line inserted by patch 1 (before prepending the indent). -/
def p2Line : Str := "for name, buffer in module.named_buffers():\n".toList

/-- Third line inserted by patch 1 (before prepending the indent). -/
def p3Line : Str := "    compressed_data[name] = buffer\n".toList

/-- Anchor substring searched for by patch 2. -/
def skipAnchor : Str := "def _skip_scale(self):".toList

/-- First replacement line written by patch 2 (before prepending the indent). -/
def d1Line : Str := "def _skip_scale(self):\n".toList

/-- Second replacement line written by patch 2 (before prepending the indent). -/
def d2Line : Str := "    # PATCHED: Don\x27t skip scale for NVFP4 - we need it!\n".toList

/-- Third replacement line written by patch 2 (before prepending the indent). -/
def d3Line : Str := "    return False\n".toList

/-- The fragment `def ` used by patch 2's method-scan heuristics. -/
def defFrag : Str := "def ".toList

/-- `old_code` of patch 3. -/
def oldCode : Str := "        scale = compressed_data[\"weight_scale\"]".toList

/-- `new_code` of patch 3 (the original line followed by the inserted
conditional dtype conversion). -/
def newCode : Str := ("        scale = compressed_data[\"weight_scale\"]\n        # PATCHED: Convert float8 to avoid promotion errors\n" ++ "        import torch\n        if scale.dtype == torch.float8_e4m3fn:\n            scale = scale.to(torch.bfloat16)").toList

/-! ### The filesystem state seen by the patch engine -/

/-- The filesystem state relevant to the patch engine: whether the
`compressed_tensors` package is importable, and the contents (or absence) of
the three target files and of their `.backup` copies. -/
structure PatchFS where
  installed : Bool
  base : Option Str
  qbase : Option Str
  fp4 : Option Str
  baseBak : Option Str
  qbaseBak : Option Str
  fp4Bak : Option Str
  deriving DecidableEq

/-- `is_patched` of `patcher.py`: under a `try`/`except` returning `False`,
locate the three files (an uninstalled package raises) and check that each
detection marker occurs in its file; a missing or unreadable file raises
inside the `try` and therefore yields `False`. -/
def is_patched (s : PatchFS) : Bool :=
  s.installed &&
    match s.base, s.qbase, s.fp4 with
    | some b, some q, some f =>
      containsSub marker1 b && containsSub marker2 q && containsSub marker3 f
    | _, _, _ => false

/-- Result of the patch-1 scan loop over the enumerated lines of
`compressors/base.py`. -/
inductive Patch1Result where
  | notFound
  | indexError
  | ok (newLines : List Str)
  deriving DecidableEq

/-- Patch 1 of `apply_patch`: walk the enumerated lines; at the first line
with index greater than 180 containing `anchor1`, also emit the following
line (raising `IndexError` if there is none), then the three new lines
prefixed with the anchor line's leading whitespace, then the rest of the
file. -/
def patch1Go (i : Nat) : List Str → Patch1Result
  | [] => Patch1Result.notFound
  | l :: rest =>
    if containsSub anchor1 l = true ∧ 180 < i then
      match rest with
      | [] => Patch1Result.indexError
      | nxt :: rest2 =>
        Patch1Result.ok (l :: nxt :: (leadingWS l ++ p1Line) :: (leadingWS l ++ p2Line) ::
          (leadingWS l ++ p3Line) :: rest2)
    else
      match patch1Go (i + 1) rest with
      | Patch1Result.ok ls => Patch1Result.ok (l :: ls)
      | r => r

/-- The condition on which patch 2's skip loop stops: the line is a
column-zero `def ` (checked as `line.strip().startswith('def ') and
line[0] != ' '`), or it contains `def ` and its first four characters are
spaces (`'def ' in line and line[:4] == '    '`). -/
def stopLine (l : Str) : Bool :=
  (defFrag.isPrefixOf (pstrip l) && (match l with | [] => false | c :: _ => decide (c ≠ ' ')))
    || (containsSub defFrag l && l.take 4 == "    ".toList)

/-- Patch 2 of `apply_patch`, with explicit fuel for structural recursion
(`patch2` instantiates the fuel with the number of lines, which is always
sufficient): every line containing `skipAnchor` is replaced by the fixed
three-line method (at the original line's indentation), and the following
lines are skipped up to, but not including, the first line satisfying
`stopLine`; all other lines are copied. -/
def patch2Go : Nat → List Str → List Str
  | _, [] => []
  | 0, ls => ls
  | fuel + 1, l :: rest =>
    if containsSub skipAnchor l then
      (leadingWS l ++ d1Line) :: (leadingWS l ++ d2Line) :: (leadingWS l ++ d3Line) ::
        patch2Go fuel (rest.dropWhile fun x => !stopLine x)
    else
      l :: patch2Go fuel rest

/-- Patch 2 applied to the lines of `quantized_compressors/base.py`. -/
def patch2 (ls : List Str) : List Str := patch2Go ls.length ls

/-- `apply_patch` of `patcher.py`, modelled as a state transformer.
`none` models a propagated exception (`ImportError` when the package is not
installed, a filesystem error when a file to read or back up is missing,
`IndexError` when patch 1's anchor is the last line).  Otherwise the result
is the returned boolean, the final filesystem state, and the number of file
writes performed (each `.backup` copy and each rewrite of a target file
counts as one write).  Patch 1 aborts with `False` after writing only the
backup when its anchor is not found; patches 2 and 3 rewrite their files
unconditionally and cannot fail. -/
def apply_patch (s : PatchFS) : Option (Bool × PatchFS × Nat) :=
  if s.installed = false then none
  else if is_patched s then some (true, s, 0)
  else
    match s.base with
    | none => none
    | some b =>
      let s1 : PatchFS := { s with baseBak := some b }
      match patch1Go 0 (splitLines b) with
      | Patch1Result.notFound => some (false, s1, 1)
      | Patch1Result.indexError => none
      | Patch1Result.ok nl =>
        let s2 : PatchFS := { s1 with base := some nl.flatten }
        match s2.qbase with
        | none => none
        | some q =>
          let s3 : PatchFS := { s2 with qbaseBak := some q }
          let s4 : PatchFS := { s3 with qbase := some (patch2 (splitLines q)).flatten }
          match s4.fp4 with
          | none => none
          | some f =>
            let s5 : PatchFS := { s4 with fp4Bak := some f }
            some (true, { s5 with fp4 := some (replaceAll oldCode newCode f) }, 6)

/-! ### The checkpoint repair pipeline of `fix_model.py` -/

/-- Tensor element types distinguished by the pipeline. -/
inductive Dtype where
  | f8e4m3
  | bf16
  | f16
  | other
  deriving DecidableEq

/-- A tensor, treated opaquely except for its element type; `payload`
stands for its (otherwise irrelevant) numeric content. -/
structure ScaleTensor where
  dtype : Dtype
  payload : Nat
  deriving DecidableEq

/-- The conditional upcast performed when a recovered scale tensor is
stored at `float8_e4m3fn`: `if scale.dtype == torch.float8_e4m3fn: scale =
scale.to(torch_dtype)`. -/
def convertScale (dt : Dtype) (t : ScaleTensor) : ScaleTensor :=
  if t.dtype = Dtype.f8e4m3 then { t with dtype := dt } else t

/-- One safetensors shard file: its path and its key/tensor entries in
iteration order. -/
structure Shard where
  path : Str
  entries : List (Str × ScaleTensor)
  deriving DecidableEq

/-- Lexicographic comparison of paths (Python string `<=` on the ASCII
paths produced by `glob`). -/
def strLe : Str → Str → Bool
  | [], _ => true
  | _ :: _, [] => false
  | c :: cs, d :: ds => if c = d then strLe cs ds else decide (c < d)

/-- Insert a shard into an already sorted list of shards, before the first
shard whose path is not smaller (so the sort below is stable, like Python's
`sorted`). -/
def insertShard (sh : Shard) : List Shard → List Shard
  | [] => [sh]
  | x :: xs => if strLe sh.path x.path then sh :: x :: xs else x :: insertShard sh xs

/-- `sorted(glob.glob(...))`: sort the shard files by path. -/
def sortShards : List Shard → List Shard
  | [] => []
  | x :: xs => insertShard x (sortShards xs)

/-- The suffix `.weight_scale` selecting scale-tensor keys. -/
def wsSuffix : Str := ".weight_scale".toList

/-- The multimodal shard-key fragment rewritten by the pipeline. -/
def mmOldFrag : Str := "language_model.model.layers".toList

/-- The replacement for `mmOldFrag` in the loaded model's naming. -/
def mmNewFrag : Str := "model.language_model.layers".toList

/-- Derivation of the owning module's name from a shard key:
`key.replace('language_model.model.layers', 'model.language_model.layers')`
followed by `.replace('.weight_scale', '')`. -/
def derive_module_name (key : Str) : Str :=
  replaceAll wsSuffix [] (replaceAll mmOldFrag mmNewFrag key)

/-- Processing of one shard entry: keys ending in `.weight_scale` are
recorded under their derived module name after the conditional `float8`
upcast, overwriting any earlier entry for the same name (the list is used
through `lookupScale`, which returns the most recently added binding, so
prepending models Python dict assignment). -/
def scaleEntryStep (dt : Dtype) (acc : List (Str × ScaleTensor)) (e : Str × ScaleTensor) :
    List (Str × ScaleTensor) :=
  if wsSuffix.isSuffixOf e.1 then (derive_module_name e.1, convertScale dt e.2) :: acc else acc

/-- The scale-recovery loop of `fix_nvfp4_model`: iterate over the shard
files in sorted path order and over each shard's keys, collecting the
`.weight_scale` tensors into the `scale_tensors` mapping. -/
def recover_scales (dt : Dtype) (shards : List Shard) : List (Str × ScaleTensor) :=
  (sortShards shards).foldl (fun acc sh => sh.entries.foldl (scaleEntryStep dt) acc) []

/-- Lookup in the recovered mapping (`scale_tensors[name]` / `name in
scale_tensors`): the most recently stored binding wins. -/
def lookupScale (m : List (Str × ScaleTensor)) (name : Str) : Option ScaleTensor :=
  (m.find? fun p => p.1 == name).map Prod.snd

/-- One module of the loaded model, as seen by the injection loop: its
dotted name and whether it exposes a `weight_packed` attribute. -/
structure ModelModule where
  name : Str
  hasWeightPacked : Bool
  deriving DecidableEq

/-- The injection count of `fix_nvfp4_model`: one per named module that
both has a `weight_packed` attribute and whose name is present in the
recovered mapping. -/
def injectCount (scales : List (Str × ScaleTensor)) (mods : List ModelModule) : Nat :=
  mods.foldl (fun n m => if m.hasWeightPacked && (lookupScale scales m.name).isSome then n + 1 else n) 0

/-- The external world of one `fix_nvfp4_model` invocation: the shard
files of the input checkpoint, the named modules of the loaded model, and
whether (and with which exception, identified by a number) the validation
forward pass raises. -/
structure FixEnv where
  shards : List Shard
  modules : List ModelModule
  forwardRaises : Bool
  forwardExc : Nat
  deriving DecidableEq

/-- What `fix_nvfp4_model` has written to the output path: whether the
output directory was created and whether the model was saved into it. -/
structure SaveState where
  outDirCreated : Bool
  modelSaved : Bool
  deriving DecidableEq

/-- The output state before any persistence step has run. -/
def initSave : SaveState := { outDirCreated := false, modelSaved := false }

/-- `fix_nvfp4_model` of `fix_model.py`: recover the scale tensors from the
shards, inject them (counting injections), then run the validation forward
pass; if it raises, the exception is re-raised (`Except.error` carrying the
original exception's identity) before `output_path.mkdir` and
`model.save_pretrained` run, so the output state stays `initSave`;
otherwise the directory is created, the model saved, and the function
returns normally. -/
def fix_nvfp4_model (dt : Dtype) (env : FixEnv) : Except Nat Nat × SaveState :=
  let scales := recover_scales dt env.shards
  let injected := injectCount scales env.modules
  if env.forwardRaises then (Except.error env.forwardExc, initSave)
  else (Except.ok injected, { outDirCreated := true, modelSaved := true })

/-! ### Helper lemmas -/

theorem containsSub_iff (pat s : Str) : containsSub pat s = true ↔ pat <:+: s := by
  induction s with
  | nil => simp [containsSub]
  | cons c cs ih =>
    simp [containsSub, Bool.or_eq_true, ih, List.infix_cons_iff]

theorem replaceAllGo_of_not_contains (pat rep : Str) (fuel : Nat) (s : Str)
    (h : containsSub pat s = false) : replaceAllGo pat rep fuel s = s := by
  induction s generalizing fuel with
  | nil => cases fuel <;> rfl
  | cons c cs ih =>
    cases fuel with
    | zero => rfl
    | succ f =>
      simp only [containsSub, Bool.or_eq_false_iff] at h
      simp [replaceAllGo, h.1, ih f h.2]

theorem replaceAll_of_not_contains (pat rep s : Str)
    (h : containsSub pat s = false) : replaceAll pat rep s = s :=
  replaceAllGo_of_not_contains pat rep s.length s h

theorem splitLinesAux_flatten (s acc : Str) :
    (splitLinesAux acc s).flatten = acc.reverse ++ s := by
  induction s generalizing acc with
  | nil =>
    by_cases h : acc.isEmpty
    · simp [splitLinesAux, h, List.isEmpty_iff.mp h]
    · simp [splitLinesAux, h]
  | cons c cs ih =>
    by_cases h : c = '\n'
    · subst h; simp [splitLinesAux, ih]
    · simp [splitLinesAux, h, ih (c :: acc)]

theorem splitLines_flatten (s : Str) : (splitLines s).flatten = s := by
  simpa using splitLinesAux_flatten s []

theorem mem_splitLines_isInfixL {l s : Str} (h : l ∈ splitLines s) : l <:+: s := by
  have := List.infix_of_mem_flatten h
  rwa [splitLines_flatten] at this

theorem containsSub_of_line {pat l s : Str} (hc : containsSub pat s = false)
    (hl : l ∈ splitLines s) : containsSub pat l = false := by
  by_contra h
  have h1 : containsSub pat l = true := by
    cases hx : containsSub pat l
    · exact absurd hx h
    · rfl
  have h2 : pat <:+: s := ((containsSub_iff pat l).mp h1).trans (mem_splitLines_isInfixL hl)
  rw [(containsSub_iff pat s).mpr h2] at hc
  exact Bool.true_eq_false.mp hc

theorem patch1Go_notFound_of_absent {ls : List Str}
    (h : ∀ l ∈ ls, containsSub anchor1 l = false) (i : Nat) :
    patch1Go i ls = Patch1Result.notFound := by
  induction ls generalizing i with
  | nil => rfl
  | cons l rest ih =>
    have hl : containsSub anchor1 l = false := h l (List.mem_cons_self l rest)
    have hcond : ¬ (containsSub anchor1 l = true ∧ 180 < i) := by
      intro hx
      rw [hl] at hx
      exact Bool.false_ne_true hx.1
    rw [patch1Go.eq_def]
    simp only []
    rw [if_neg hcond, ih (fun x hx => h x (List.mem_cons_of_mem l hx)) (i + 1)]

theorem patch1Go_append (pre : List Str) (a nxt : Str) (post : List Str) (i : Nat)
    (hpre : ∀ j l, pre.get? j = some l → 180 < i + j → containsSub anchor1 l = false)
    (hlen : 180 < i + pre.length)
    (ha : containsSub anchor1 a = true) :
    patch1Go i (pre ++ a :: nxt :: post) =
      Patch1Result.ok (pre ++ a :: nxt :: (leadingWS a ++ p1Line) :: (leadingWS a ++ p2Line) ::
        (leadingWS a ++ p3Line) :: post) := by
  induction pre generalizing i with
  | nil =>
    simp only [List.length_nil, Nat.add_zero] at hlen
    simp only [List.nil_append]
    rw [patch1Go.eq_def]
    simp only []
    rw [if_pos ⟨ha, hlen⟩]
  | cons l pre' ih =>
    have hl : containsSub anchor1 l = false ∨ ¬ 180 < i := by
      by_cases hi : 180 < i
      · exact Or.inl (hpre 0 l rfl (by omega))
      · exact Or.inr hi
    have hcond : ¬ (containsSub anchor1 l = true ∧ 180 < i) := by
      rcases hl with h1 | h1
      · intro hx; rw [h1] at hx; exact Bool.false_ne_true hx.1
      · intro hx; exact h1 hx.2
    have hpre' : ∀ j l', pre'.get? j = some l' → 180 < (i + 1) + j → containsSub anchor1 l' = false := by
      intro j l' hg hj
      exact hpre (j + 1) l' (by simpa using hg) (by omega)
    have hlen' : 180 < (i + 1) + pre'.length := by
      simp only [List.length_cons] at hlen; omega
    simp only [List.cons_append]
    rw [patch1Go.eq_def]
    simp only []
    rw [if_neg hcond, ih (i + 1) hpre' hlen']

theorem patch2Go_of_absent {ls : List Str}
    (h : ∀ l ∈ ls, containsSub skipAnchor l = false) (fuel : Nat) :
    patch2Go fuel ls = ls := by
  induction ls generalizing fuel with
  | nil => cases fuel <;> rfl
  | cons l rest ih =>
    cases fuel with
    | zero => rfl
    | succ f =>
      have hl : containsSub skipAnchor l = false := h l (List.mem_cons_self l rest)
      rw [patch2Go.eq_def]
      simp only [hl, Bool.false_eq_true, if_false]
      rw [ih (fun x hx => h x (List.mem_cons_of_mem l hx)) f]

theorem dropWhile_append_of_all {body post : List Str}
    (hbody : ∀ l ∈ body, stopLine l = false)
    (hpost : ∀ p ∈ post.head?, stopLine p = true) :
    (body ++ post).dropWhile (fun x => !stopLine x) = post := by
  induction body with
  | nil =>
    cases post with
    | nil => rfl
    | cons p ps =>
      have hp : stopLine p = true := hpost p rfl
      simp [List.dropWhile_cons, hp]
  | cons b bs ih =>
    have hb : stopLine b = false := hbody b (List.mem_cons_self b bs)
    simp only [List.cons_append, List.dropWhile_cons, hb, Bool.not_false, if_pos]
    exact ih (fun x hx => hbody x (List.mem_cons_of_mem b hx))

theorem patch2Go_main (pre : List Str) (d : Str) (body post : List Str) (fuel : Nat)
    (hfuel : (pre ++ d :: (body ++ post)).length ≤ fuel)
    (hpre : ∀ l ∈ pre, containsSub skipAnchor l = false)
    (hd : containsSub skipAnchor d = true)
    (hbody : ∀ l ∈ body, stopLine l = false)
    (hrest : ∀ l ∈ body ++ post, containsSub skipAnchor l = false)
    (hpost : ∀ p ∈ post.head?, stopLine p = true) :
    patch2Go fuel (pre ++ d :: (body ++ post)) =
      pre ++ (leadingWS d ++ d1Line) :: (leadingWS d ++ d2Line) :: (leadingWS d ++ d3Line) :: post := by
  induction pre generalizing fuel with
  | nil =>
    simp only [List.nil_append]
    cases fuel with
    | zero => simp at hfuel
    | succ f =>
      rw [patch2Go.eq_def]
      simp only [hd, if_true]
      rw [dropWhile_append_of_all hbody hpost]
      have hpostAbs : ∀ l ∈ post, containsSub skipAnchor l = false := by
        intro l hl
        exact hrest l (List.mem_append_right body hl)
      rw [patch2Go_of_absent hpostAbs f]
  | cons l pre' ih =>
    cases fuel with
    | zero => simp at hfuel
    | succ f =>
      have hl : containsSub skipAnchor l = false := hpre l (List.mem_cons_self l pre')
      simp only [List.cons_append]
      rw [patch2Go.eq_def]
      simp only [hl, Bool.false_eq_true, if_false]
      have hfuel' : (pre' ++ d :: (body ++ post)).length ≤ f := by
        simp only [List.cons_append, List.length_append, List.length_cons] at hfuel ⊢
        omega
      rw [ih f hfuel' (fun x hx => hpre x (List.mem_cons_of_mem l hx))]

/-- Left-biased choice on optional tensors, used to phrase the fold lemmas. -/
def optOr : Option ScaleTensor → Option ScaleTensor → Option ScaleTensor
  | some a, _ => some a
  | none, b => b

theorem optOr_none_right (a : Option ScaleTensor) : optOr a none = a := by
  cases a <;> rfl

theorem optOr_assoc (a b c : Option ScaleTensor) :
    optOr (optOr a b) c = optOr a (optOr b c) := by
  cases a <;> cases b <;> rfl

/-- The match predicate for claim C9: entries whose key ends in
`.weight_scale` and whose derived module name is `name`. -/
def scaleKeyMatches (name : Str) (e : Str × ScaleTensor) : Bool :=
  wsSuffix.isSuffixOf e.1 && derive_module_name e.1 == name

theorem find?_append_opt (l1 l2 : List (Str × ScaleTensor)) (p : Str × ScaleTensor → Bool) :
    (l1 ++ l2).find? p = (match l1.find? p with | some x => some x | none => l2.find? p) := by
  induction l1 with
  | nil => rfl
  | cons e es ih =>
    by_cases h : p e
    · simp [List.find?_cons, h]
    · simp only [List.cons_append, List.find?_cons, Bool.not_eq_true] at *
      rw [h] at *
      simpa using ih

theorem lookupScale_foldl (dt : Dtype) (es : List (Str × ScaleTensor))
    (acc : List (Str × ScaleTensor)) (name : Str) :
    lookupScale (es.foldl (scaleEntryStep dt) acc) name =
      optOr ((es.reverse.find? (scaleKeyMatches name)).map fun e => convertScale dt e.2)
        (lookupScale acc name) := by
  induction es generalizing acc with
  | nil => rfl
  | cons e es ih =>
    rw [List.foldl_cons, ih (scaleEntryStep dt acc e)]
    have hstep : lookupScale (scaleEntryStep dt acc e) name =
        optOr ((([e] : List (Str × ScaleTensor)).find? (scaleKeyMatches name)).map
          fun x => convertScale dt x.2) (lookupScale acc name) := by
      by_cases hs : wsSuffix.isSuffixOf e.1
      · by_cases hn : derive_module_name e.1 == name
        · simp [scaleEntryStep, hs, lookupScale, List.find?_cons, hn, scaleKeyMatches, optOr]
        · simp only [Bool.not_eq_true] at hn
          simp [scaleEntryStep, hs, lookupScale, List.find?_cons, hn, scaleKeyMatches, optOr]
      · simp only [Bool.not_eq_true] at hs
        simp [scaleEntryStep, hs, scaleKeyMatches, List.find?_cons, optOr]
    rw [hstep, ← optOr_assoc]
    congr 1
    rw [List.reverse_cons, find?_append_opt]
    cases hse : es.reverse.find? (scaleKeyMatches name) <;> simp [optOr]

theorem foldl_shards_flatten (dt : Dtype) (shs : List Shard) (acc : List (Str × ScaleTensor)) :
    shs.foldl (fun a sh => sh.entries.foldl (scaleEntryStep dt) a) acc =
      ((shs.map Shard.entries).flatten).foldl (scaleEntryStep dt) acc := by
  induction shs generalizing acc with
  | nil => rfl
  | cons sh shs ih =>
    simp only [List.foldl_cons, List.map_cons, List.flatten_cons, List.foldl_append]
    exact ih (sh.entries.foldl (scaleEntryStep dt) acc)

/-! ### Spec-side definitions and concrete test states

The following definitions are written from the specification's wording (not
from the source); they exist to be compared with the source-derived
functions above. -/

/-- Modelled from the spec: the index of the first line past the minimum
line-number threshold that contains the anchor substring. -/
def findAnchorIdx : Nat → List Str → Option Nat
  | _, [] => none
  | i, l :: rest =>
    if containsSub anchor1 l = true ∧ 180 < i then some i else findAnchorIdx (i + 1) rest

/-- Modelled from the spec's wording of the insertion edit: insert the new
lines immediately after the anchor line, carrying the anchor line's leading
whitespace. -/
def insertAfterAnchorSpec (ls : List Str) : Option (List Str) :=
  match findAnchorIdx 0 ls with
  | none => none
  | some i =>
    let ind := leadingWS (ls.getD i [])
    some (ls.take (i + 1) ++ (ind ++ p1Line) :: (ind ++ p2Line) :: (ind ++ p3Line) :: ls.drop (i + 1))

/-- Extract the rewritten lines from a successful patch-1 scan. -/
def patch1Res (r : Patch1Result) : Option (List Str) :=
  match r with
  | Patch1Result.ok ls => some ls
  | _ => none

/-- Modelled from the spec: a line defining a routine (its stripped text
starts with `def `). -/
def isDefLineSpec (l : Str) : Bool := defFrag.isPrefixOf (pstrip l)

/-- Modelled from the spec's wording of the method-body-replacement edit:
replace all lines of the routine's body, up to the next definition at the
same or lower indentation, with the fixed replacement. -/
def replaceBodySpec : List Str → List Str
  | [] => []
  | l :: rest =>
    if containsSub skipAnchor l then
      (leadingWS l ++ d1Line) :: (leadingWS l ++ d2Line) :: (leadingWS l ++ d3Line) ::
        rest.dropWhile (fun x => !(isDefLineSpec x && decide ((leadingWS x).length ≤ (leadingWS l).length)))
    else l :: replaceBodySpec rest

/-- Modelled from the spec: the key with the `.weight_scale` suffix
stripped (and nothing else changed). -/
def stripWsSuffixSpec (k : Str) : Str := k.take (k.length - wsSuffix.length)

/-- 181 filler lines, placing the following line at index 181 (> 180). -/
def fill181 : Str := (List.replicate 181 ("x\n".toList)).flatten

/-- A `compressors/base.py` content whose anchor sits past the threshold
and is followed by one more line. -/
def goodBase : Str :=
  fill181 ++ "for name, parameter in module.named_parameters():\n".toList ++ "y\n".toList

/-- A state in which patch 1's anchor is present but the anchors of
patches 2 and 3 are absent from their files. -/
def exState0 : PatchFS :=
  { installed := true, base := some goodBase, qbase := some ("q\n".toList),
    fp4 := some ("f\n".toList), baseBak := none, qbaseBak := none, fp4Bak := none }

/-- A `quantized_compressors/base.py` content containing the
`_skip_scale` method. -/
def goodQ : Str := "    def _skip_scale(self):\n        return True\n".toList

/-- An `fp4_quantized.py` content containing patch 3's `old_code`. -/
def goodF : Str := oldCode ++ "\n".toList

/-- A state in which all three patches find their anchors. -/
def exFull : PatchFS :=
  { installed := true, base := some goodBase, qbase := some goodQ,
    fp4 := some goodF, baseBak := none, qbaseBak := none, fp4Bak := none }

/-- The state produced by a successful `apply_patch` on `exFull`. -/
def exFullS1 : PatchFS :=
  match apply_patch exFull with
  | some r => r.2.1
  | none => exFull

/-- Lines exercising the insertion edit: the anchor line at index 181 is
followed by a further line, so the inserted block lands after that
following line. -/
def b3lines : List Str :=
  List.replicate 181 ("x\n".toList) ++
    ["  for name, parameter in module.named_parameters():\n".toList,
     "  nxt\n".toList, "  tail\n".toList]

/-- Lines exercising the body-replacement edit: the `_skip_scale` body
contains a nested, deeper-indented `def`. -/
def c4lines : List Str :=
  ["class A:\n".toList, "    def _skip_scale(self):\n".toList,
   "        x = 1\n".toList, "        def helper():\n".toList,
   "            pass\n".toList, "    def other(self):\n".toList,
   "        pass\n".toList]

/-- The shard key used by the claim C6 counterexample: it ends in
`.weight_scale` and also contains it internally. -/
def c6BadKey : Str := "x.weight_scale.y.weight_scale".toList

/-! ### Claims -/

set_option maxRecDepth 20000

/-- C1 (counterexample): the claim "for every target file of `applyPatch`
whose anchor string is absent from the file's content, `applyPatch` returns
failure" is false: in state `exState0` the anchors of the second target
(`def _skip_scale(self):`) and of the third target (`old_code`) are absent
from their files, yet `apply_patch` returns success. -/
theorem c1_counterexample :
    containsSub skipAnchor ("q\n".toList) = false ∧
    containsSub oldCode ("f\n".toList) = false ∧
    (apply_patch exState0).map (fun r => r.1) = some true := by
  decide

/-- C1 (amended): for the first target file of `apply_patch` only: if the
patch is not already detected as applied and the anchor string is absent
from the first target's content, `apply_patch` returns failure and leaves
that file's content byte-for-byte unchanged, with only its backup written
(a single file write). -/
theorem c1_theorem (s : PatchFS) (b : Str)
    (hinst : s.installed = true) (hnp : is_patched s = false) (hb : s.base = some b)
    (habs : containsSub anchor1 b = false) :
    apply_patch s = some (false, { s with baseBak := some b }, 1) := by
  have hnf : patch1Go 0 (splitLines b) = Patch1Result.notFound :=
    patch1Go_notFound_of_absent (fun l hl => containsSub_of_line habs hl) 0
  simp [apply_patch, hinst, hnp, hb, hnf]

/-- C1 (witness): the amended claim at a concrete state. -/
theorem c1_witness :
    apply_patch
      { installed := true, base := some ("hi\n".toList), qbase := some ("a\n".toList),
        fp4 := some ("b\n".toList), baseBak := none, qbaseBak := none, fp4Bak := none } =
      some (false,
        { installed := true, base := some ("hi\n".toList), qbase := some ("a\n".toList),
          fp4 := some ("b\n".toList), baseBak := some ("hi\n".toList), qbaseBak := none,
          fp4Bak := none }, 1) :=
  c1_theorem _ _ rfl (by decide) rfl (by decide)

/-- C2 (counterexample): calling `apply_patch` twice on `exState0` refutes
the claim: the first call returns success, yet `is_patched` is false
afterwards (patches 2 and 3 silently missed their anchors, so their markers
were never written), and the second call performs 6 file writes, not 0. -/
theorem c2_counterexample :
    (apply_patch exState0).map (fun r => r.1) = some true ∧
    (apply_patch exState0).map (fun r => is_patched r.2.1) = some false ∧
    ((apply_patch exState0).bind (fun r => apply_patch r.2.1)).map (fun r => r.2.2) = some 6 := by
  decide

/-- C2 (amended): if the first `apply_patch` call succeeds and leaves the
patch detected as applied (all three markers present), then the second call
returns success, performs zero file writes, leaves the state untouched, and
`is_patched` is true after each call. -/
theorem c2_theorem (s s1 : PatchFS) (w : Nat)
    (h1 : apply_patch s = some (true, s1, w)) (h2 : is_patched s1 = true) :
    apply_patch s1 = some (true, s1, 0) ∧ is_patched s1 = true := by
  have hinst : s1.installed = true := by
    have := h2
    rw [is_patched, Bool.and_eq_true] at this
    exact this.1
  refine ⟨?_, h2⟩
  simp [apply_patch, hinst, h2]

/-- C2 (witness): the amended claim at the concrete state `exFull`, where
all three anchors are found by the first call. -/
theorem c2_witness :
    apply_patch exFullS1 = some (true, exFullS1, 0) ∧ is_patched exFullS1 = true :=
  c2_theorem exFull exFullS1 6 (by decide) (by decide)

/-- C3 (counterexample): on `b3lines` the insertion edit does not insert
the new lines immediately after the anchor line: the code's result differs
from the spec-modelled insertion (the block lands one line later). -/
theorem c3_counterexample :
    patch1Res (patch1Go 0 b3lines) ≠ insertAfterAnchorSpec b3lines := by
  decide

/-- C3 (amended): the new lines are inserted immediately after the line
that FOLLOWS the first line (past the index-180 threshold) containing the
anchor substring, and the inserted block carries the anchor line's leading
whitespace as its indentation. -/
theorem c3_theorem (pre : List Str) (a nxt : Str) (post : List Str)
    (hpre : ∀ j l, pre.get? j = some l → 180 < j → containsSub anchor1 l = false)
    (hlen : 180 < pre.length)
    (ha : containsSub anchor1 a = true) :
    patch1Go 0 (pre ++ a :: nxt :: post) =
      Patch1Result.ok (pre ++ a :: nxt :: (leadingWS a ++ p1Line) :: (leadingWS a ++ p2Line) ::
        (leadingWS a ++ p3Line) :: post) :=
  patch1Go_append pre a nxt post 0
    (fun j l hg hj => hpre j l hg (by omega))
    (by omega) ha

/-- C3 (witness): the amended claim at concrete lines. -/
theorem c3_witness :
    patch1Go 0 (List.replicate 181 ("x\n".toList) ++
        ("for name, parameter in module.named_parameters():\n".toList) :: ("y\n".toList) :: []) =
      Patch1Result.ok (List.replicate 181 ("x\n".toList) ++
        ("for name, parameter in module.named_parameters():\n".toList) :: ("y\n".toList) ::
        (leadingWS ("for name, parameter in module.named_parameters():\n".toList) ++ p1Line) ::
        (leadingWS ("for name, parameter in module.named_parameters():\n".toList) ++ p2Line) ::
        (leadingWS ("for name, parameter in module.named_parameters():\n".toList) ++ p3Line) :: []) :=
  c3_theorem _ _ _ _
    (fun j l hg hj => by
      have hnone : (List.replicate 181 ("x\n".toList)).get? j = none := by
        rw [List.get?_eq_none]
        simp only [List.length_replicate]
        omega
      rw [hnone] at hg
      exact Option.noConfusion hg)
    (by simp) (by decide)

/-- C4 (counterexample): on `c4lines` (whose `_skip_scale` body holds a
nested, deeper-indented `def`) the code's body replacement differs from the
spec-modelled one: the code stops skipping at the nested `def helper():`
line (it contains `def ` and starts with four spaces) and keeps it and the
following body lines, while the claim requires removal up to the next
same-or-lower-indentation definition. -/
theorem c4_counterexample : patch2 c4lines ≠ replaceBodySpec c4lines := by
  decide

/-- C4 (amended): the lines removed after the `def _skip_scale(self):`
line are exactly those up to (but not including) the first line that either
is a top-level definition (stripped text starting with `def ` and first
character not a space) or contains `def ` with its first four characters
being spaces; the method line and those body lines are replaced by the
fixed replacement (header, patch comment, `return False`) at the method
line's indentation, and every other line is preserved unchanged. -/
theorem c4_theorem (pre : List Str) (d : Str) (body post : List Str)
    (hpre : ∀ l ∈ pre, containsSub skipAnchor l = false)
    (hd : containsSub skipAnchor d = true)
    (hbody : ∀ l ∈ body, stopLine l = false)
    (hrest : ∀ l ∈ body ++ post, containsSub skipAnchor l = false)
    (hpost : ∀ p ∈ post.head?, stopLine p = true) :
    patch2 (pre ++ d :: (body ++ post)) =
      pre ++ (leadingWS d ++ d1Line) :: (leadingWS d ++ d2Line) :: (leadingWS d ++ d3Line) :: post :=
  patch2Go_main pre d body post (pre ++ d :: (body ++ post)).length (Nat.le_refl _)
    hpre hd hbody hrest hpost

/-- C4 (witness): the amended claim at a concrete method. -/
theorem c4_witness :
    patch2 (["class A:\n".toList] ++ ("    def _skip_scale(self):\n".toList) ::
        (["        return True\n".toList] ++ ["    def other(self):\n".toList])) =
      ["class A:\n".toList] ++
        (leadingWS ("    def _skip_scale(self):\n".toList) ++ d1Line) ::
        (leadingWS ("    def _skip_scale(self):\n".toList) ++ d2Line) ::
        (leadingWS ("    def _skip_scale(self):\n".toList) ++ d3Line) ::
        ["    def other(self):\n".toList] :=
  c4_theorem _ _ _ _ (by decide) (by decide) (by decide) (by decide) (by decide)

/-- C5 (confirmed): `is_patched` returns true only when all three
detection markers are present in their respective files, and returns false
whenever one of the markers is absent from its (present) target file. -/
theorem c5_theorem (s : PatchFS) :
    (is_patched s = true →
      s.installed = true ∧
      (∃ b, s.base = some b ∧ containsSub marker1 b = true) ∧
      (∃ q, s.qbase = some q ∧ containsSub marker2 q = true) ∧
      (∃ f, s.fp4 = some f ∧ containsSub marker3 f = true)) ∧
    (∀ b, s.base = some b → containsSub marker1 b = false → is_patched s = false) ∧
    (∀ q, s.qbase = some q → containsSub marker2 q = false → is_patched s = false) ∧
    (∀ f, s.fp4 = some f → containsSub marker3 f = false → is_patched s = false) := by
  cases hb : s.base <;> cases hq : s.qbase <;> cases hf : s.fp4 <;>
    simp_all [is_patched, Bool.and_eq_true]

/-- C5 (witness): a state whose second marker is absent is reported as not
patched. -/
theorem c5_witness :
    is_patched
      { installed := true, base := some marker1, qbase := some ("nope\n".toList),
        fp4 := some marker3, baseBak := none, qbaseBak := none, fp4Bak := none } = false :=
  (c5_theorem _).2.2.1 ("nope\n".toList) rfl (by decide)

/-- C6 (counterexample): `c6BadKey` ends in `.weight_scale` and does not
contain the multimodal fragment, yet the derived module name is not the key
with the suffix stripped: `str.replace('.weight_scale', '')` removes every
occurrence, giving `x.y` instead of `x.weight_scale.y`. -/
theorem c6_counterexample :
    wsSuffix.isSuffixOf c6BadKey = true ∧
    containsSub mmOldFrag c6BadKey = false ∧
    derive_module_name c6BadKey = "x.y".toList ∧
    derive_module_name c6BadKey ≠ stripWsSuffixSpec c6BadKey := by
  decide

/-- C6 (amended): for the synthetic key
`language_model.model.layers.3.mlp.weight_scale` the derived module name is
`model.language_model.layers.3.mlp`; and for every key ending in
`.weight_scale` that does not contain the multimodal fragment, the derived
module name is the key with every occurrence of `.weight_scale` removed. -/
theorem c6_theorem :
    derive_module_name ("language_model.model.layers.3.mlp.weight_scale".toList) =
      "model.language_model.layers.3.mlp".toList ∧
    ∀ k : Str, wsSuffix.isSuffixOf k = true → containsSub mmOldFrag k = false →
      derive_module_name k = replaceAll wsSuffix [] k := by
  refine ⟨by decide, ?_⟩
  intro k _ hmm
  rw [derive_module_name, replaceAll_of_not_contains _ _ _ hmm]

/-- C6 (witness): the amended claim at a concrete key. -/
theorem c6_witness :
    derive_module_name ("abc.weight_scale".toList) =
      replaceAll wsSuffix [] ("abc.weight_scale".toList) :=
  c6_theorem.2 ("abc.weight_scale".toList) (by decide) (by decide)

/-- C7 (confirmed): if the validation forward pass raises, the exception is
propagated with its original identity and nothing is persisted: the output
directory is not created and the model is not saved. -/
theorem c7_theorem (dt : Dtype) (env : FixEnv) (h : env.forwardRaises = true) :
    fix_nvfp4_model dt env = (Except.error env.forwardExc, initSave) := by
  simp [fix_nvfp4_model, h]

/-- C7 (witness): the claim at a concrete environment whose forward pass
raises exception 42. -/
theorem c7_witness :
    fix_nvfp4_model Dtype.bf16
      { shards := [], modules := [], forwardRaises := true, forwardExc := 42 } =
      (Except.error 42, initSave) :=
  c7_theorem Dtype.bf16 _ rfl

/-- C8 (confirmed): `is_patched` is a total boolean function of the
filesystem state (so it never raises), and it returns false whenever the
library is not installed or any of the three target files is missing. -/
theorem c8_theorem (s : PatchFS)
    (h : s.installed = false ∨ s.base = none ∨ s.qbase = none ∨ s.fp4 = none) :
    is_patched s = false := by
  rcases h with h | h | h | h <;>
    (cases hb : s.base <;> cases hq : s.qbase <;> cases hf : s.fp4 <;> simp_all [is_patched])

/-- C8 (witness): the claim at the state of an uninstalled library with no
files. -/
theorem c8_witness :
    is_patched
      { installed := false, base := none, qbase := none, fp4 := none,
        baseBak := none, qbaseBak := none, fp4Bak := none } = false :=
  c8_theorem _ (Or.inl rfl)

/-- C9 (confirmed): the retained scale mapping is last-write-wins over the
lexicographically sorted shard order: looking up a module name in the
recovered mapping returns exactly the conversion of the last tensor (over
the sorted shards, in key order) whose key ends in `.weight_scale` and
derives that name; consequently any two shard lists with the same sorted
order recover the same mapping. -/
theorem c9_theorem (dt : Dtype) (shards : List Shard) (name : Str) :
    (lookupScale (recover_scales dt shards) name =
      ((((sortShards shards).map Shard.entries).flatten.reverse.find?
        (scaleKeyMatches name)).map fun e => convertScale dt e.2)) ∧
    ∀ shards2 : List Shard, sortShards shards2 = sortShards shards →
      recover_scales dt shards2 = recover_scales dt shards := by
  constructor
  · rw [recover_scales, foldl_shards_flatten, lookupScale_foldl]
    have hnil : lookupScale [] name = none := rfl
    rw [hnil, optOr_none_right]
  · intro shards2 h
    rw [recover_scales, recover_scales, h]

/-- C9 (witness): two shard lists differing only in enumeration order
recover the same mapping. -/
theorem c9_witness :
    recover_scales Dtype.bf16
      [{ path := "model-00002-of-00002.safetensors".toList,
         entries := [("m.weight_scale".toList, { dtype := Dtype.f8e4m3, payload := 2 })] },
       { path := "model-00001-of-00002.safetensors".toList,
         entries := [("m.weight_scale".toList, { dtype := Dtype.f8e4m3, payload := 1 })] }] =
    recover_scales Dtype.bf16
      [{ path := "model-00001-of-00002.safetensors".toList,
         entries := [("m.weight_scale".toList, { dtype := Dtype.f8e4m3, payload := 1 })] },
       { path := "model-00002-of-00002.safetensors".toList,
         entries := [("m.weight_scale".toList, { dtype := Dtype.f8e4m3, payload := 2 })] }] :=
  (c9_theorem Dtype.bf16 _ []).2 _ (by decide)

/-- C10 (confirmed): if the first patch target's anchor scan fails (the
patch not being already applied), `apply_patch` returns failure after a
single file write, the first target's `.backup`; the first target's file
and the second and third targets' files and backups are all left
untouched. -/
theorem c10_theorem (s : PatchFS) (b : Str)
    (hinst : s.installed = true) (hnp : is_patched s = false) (hb : s.base = some b)
    (hanchor : patch1Go 0 (splitLines b) = Patch1Result.notFound) :
    apply_patch s = some (false, { s with baseBak := some b }, 1) := by
  simp [apply_patch, hinst, hnp, hb, hanchor]

/-- C10 (witness): the claim at a concrete state whose first target lacks
the anchor. -/
theorem c10_witness :
    apply_patch
      { installed := true, base := some ("hello\n".toList), qbase := some ("qq\n".toList),
        fp4 := some ("ff\n".toList), baseBak := none, qbaseBak := none, fp4Bak := none } =
      some (false,
        { installed := true, base := some ("hello\n".toList), qbase := some ("qq\n".toList),
          fp4 := some ("ff\n".toList), baseBak := some ("hello\n".toList), qbaseBak := none,
          fp4Bak := none }, 1) :=
  c10_theorem _ _ rfl (by decide) rfl (by decide)
